import Mathlib

/-
Verification of the `metriclint` package (promlint repository).

The definitions below are a shallow embedding of the Go source files
`src/pkg/metriclint/common.go` and `src/pkg/metriclint/metriclint.go`.
Go strings are Lean `String`s, Go `[]string` is `List String`, and a Go
`prometheus.Labels` map (`map[string]string`) is embedded as a
`List (String × String)` holding the map's entries in the (unspecified)
order a `range` loop over the map observes.  Functions that iterate the
package-level `units` map take that observed enumeration order as an
explicit `entries` parameter; the canonical definitions instantiate it
with the textual order of the map literal in the source.
-/

namespace Metriclint

/-- The `units` map of common.go, as its entry list in the textual order of
the Go map literal.  Maps a unit word to the base unit of its dimension. -/
def units : List (String × String) :=
  [("amperes", "amperes"),
   ("bytes", "bytes"),
   ("celsius", "celsius"),
   ("grams", "grams"),
   ("joules", "joules"),
   ("meters", "meters"),
   ("metres", "metres"),
   ("seconds", "seconds"),
   ("volts", "volts"),
   ("minutes", "seconds"),
   ("hours", "seconds"),
   ("days", "seconds"),
   ("weeks", "seconds"),
   ("kelvin", "celsius"),
   ("kelvins", "celsius"),
   ("fahrenheit", "celsius"),
   ("rankine", "celsius"),
   ("inches", "meters"),
   ("yards", "meters"),
   ("miles", "meters"),
   ("bits", "bytes"),
   ("calories", "joules"),
   ("pounds", "grams"),
   ("ounces", "grams")]

/-- The `unitPrefixes` slice of common.go (a Go slice: iteration order is
its element order). -/
def unitPrefixes : List String :=
  ["pico", "nano", "micro", "milli", "centi", "deci", "deca", "hecto",
   "kilo", "kibi", "mega", "mibi", "giga", "gibi", "tera", "tebi",
   "peta", "pebi"]

/-- The `unitAbbreviations` slice of common.go. -/
def unitAbbreviations : List String :=
  ["s", "ms", "us", "ns", "sec", "b", "kb", "mb", "gb", "tb", "pb",
   "m", "h", "d"]

/-- Does `sub` occur as the leading block of `l`?  Embeds the prefix test
used by Go's `strings.Contains` machinery. -/
def leadsWith : List Char → List Char → Bool
  | [], _ => true
  | _ :: _, [] => false
  | a :: sa, b :: lb => (a == b) && leadsWith sa lb

/-- Does `sub` occur as a contiguous block anywhere in `l`? -/
def listContainsSub (sub : List Char) : List Char → Bool
  | [] => leadsWith sub []
  | c :: rest => leadsWith sub (c :: rest) || listContainsSub sub rest

/-- Go `strings.Contains(s, sub)`. -/
def strContains (s sub : String) : Bool :=
  listContainsSub sub.data s.data

/-- Go `strings.HasSuffix(s, suf)`. -/
def strHasSuffix (s suf : String) : Bool :=
  leadsWith suf.data.reverse s.data.reverse

/-- Go `strings.ToLower` (the metric names involved are ASCII, where
Lean's `Char.toLower` agrees with Go). -/
def strToLower (s : String) : String :=
  String.mk (s.data.map Char.toLower)

/-- Splits a character list at every occurrence of `sep`, keeping empty
segments: the single-character-separator case of Go `strings.Split`. -/
def splitCharList (sep : Char) : List Char → List (List Char)
  | [] => [[]]
  | c :: rest =>
    let r := splitCharList sep rest
    if c = sep then [] :: r
    else
      match r with
      | [] => [[c]]
      | h :: t => (c :: h) :: t

/-- Go `strings.Split(s, "_")` as used by `getMetricUnit`. -/
def splitOnUnderscore (s : String) : List String :=
  (splitCharList '_' s.data).map fun cs => String.mk cs

/-- Go `strings.Join(issues, ",")` as used by `LintResult.String`. -/
def joinComma : List String → String
  | [] => ""
  | [x] => x
  | x :: y :: rest => x ++ "," ++ joinComma (y :: rest)

/-- The `camelCase` regexp of common.go is `[a-z][A-Z]`; `FindString`
returns a non-empty string exactly when some character that is an ASCII
lower-case letter is immediately followed by an ASCII upper-case letter. -/
def hasLowerUpperPair : List Char → Bool
  | a :: b :: rest => (a.isLower && b.isUpper) || hasLowerUpperPair (b :: rest)
  | _ => false

/-- `camelCase.FindString(name) != ""` of common.go. -/
def camelCaseMatch (s : String) : Bool :=
  hasLowerUpperPair s.data

/-- `prometheus.BuildFQName` of the client_golang dependency (not part of
this repository): joins the non-empty parts with `_`, except that an empty
`name` yields the empty string. -/
def BuildFQName (ns ss name : String) : String :=
  if name = "" then ""
  else if ns ≠ "" then
    (if ss ≠ "" then ns ++ "_" ++ ss ++ "_" ++ name else ns ++ "_" ++ name)
  else if ss ≠ "" then ss ++ "_" ++ name
  else name

/-- `dto.MetricType_name` of the client_model dependency: the generated
`map[int32]string` for the metric-type enum, as its entry list in key
order. -/
def MetricType_name : List (Int × String) :=
  [(0, "COUNTER"), (1, "GAUGE"), (2, "SUMMARY"), (3, "UNTYPED"), (4, "HISTOGRAM")]

/-- `dto.MetricType_UNTYPED`. -/
def MetricType_UNTYPED : Int := 3

/-- `LabelLe` of common.go. -/
def LabelLe : String := "le"

/-- `LabelQuantile` of common.go. -/
def LabelQuantile : String := "quantile"

/-- Issue text of `lintHelp`. -/
def noHelpMsg : String := "no help text"

/-- Issue text of `lintCounterContainsTotal`. -/
def counterHaveTotalMsg : String := "counter metrics should have \"_total\" suffix"

/-- Issue text of `lintNonCounterNoTotal` (common.go). -/
def counterNotHaveTotalMsg : String := "counter metrics should not have \"_total\" suffix"

/-- Issue text of `lintMetricUnit`, i.e.
`fmt.Sprintf("use base unit %q instead of %q", base, unit)`. -/
def nonBaseUnitMsg (base unit : String) : String :=
  "use base unit \"" ++ base ++ "\" instead of \"" ++ unit ++ "\""

/-- Issue text of `lintNonHistogramNoBucket`. -/
def nonHistBucketMsg : String := "non-histogram metrics should not have \"_bucket\" suffix"

/-- Issue text of `lintNonHistogramSummaryNoCount`. -/
def noCountSuffixMsg : String := "non-histogram and non-summary metrics should not have \"_count\" suffix"

/-- Issue text of `lintNonHistogramSummaryNoSum`. -/
def noSumSuffixMsg : String := "non-histogram and non-summary metrics should not have \"_sum\" suffix"

/-- Issue text of `lintNonHistogramNoLabelLe`. -/
def leLabelMsg : String := "non-histogram metrics should not have \"le\" label"

/-- Issue text of `lintNonSummaryNoLabelQuantile`. -/
def quantileLabelMsg : String := "non-summary metrics should not have \"quantile\" label"

/-- Issue text of `lintNoMetricTypeInName`, i.e.
`fmt.Sprintf("metric name should not include type '%s'", typename)`. -/
def noMetricTypeMsg (typename : String) : String :=
  "metric name should not include type '" ++ typename ++ "'"

/-- Issue text of `lintReservedChars`. -/
def reservedCharsMsg : String := "metric names should not contain ':'"

/-- Issue text of `lintNameCamelCase`. -/
def nameCamelMsg : String := "metric names should be written in 'snake_case' not 'camelCase'"

/-- Issue text of `lintLabelNameCamelCase`. -/
def labelCamelMsg : String := "label names should be written in 'snake_case' not 'camelCase'"

/-- Issue text of `lintUnitAbbreviations`. -/
def abbrevUnitMsg : String := "metric names should not contain abbreviated units"

/-- `lintHelp` of common.go. -/
def lintHelp (help : String) : List String :=
  if help.length = 0 then [noHelpMsg] else []

/-- `hasTotalSuffix` of common.go. -/
def hasTotalSuffix (name : String) : Bool :=
  strHasSuffix name "_total"

/-- `lintCounterContainsTotal` of common.go. -/
def lintCounterContainsTotal (name : String) : List String :=
  if !hasTotalSuffix name then [counterHaveTotalMsg] else []

/-- `lintNonCounterNoTotal` of common.go. -/
def lintNonCounterNoTotal (name : String) : List String :=
  if hasTotalSuffix name then [counterNotHaveTotalMsg] else []

/-- `getMetricUnit` of common.go, parameterized by the enumeration order
`entries` in which the `range` loop visits the `units` map.  For each unit
(in `entries` order), each prefix in slice order with the empty prefix
appended last, and each `_`-segment of the name in positional order, the
first segment equal to `prefix ++ unit` ends the search; `none` plays the
role of the `("", "", false)` return. -/
def getMetricUnitWith (entries : List (String × String)) (m : String) :
    Option (String × String) :=
  let ss := splitOnUnderscore m
  entries.findSome? fun ub =>
    (unitPrefixes ++ [""]).findSome? fun p =>
      if ss.contains (p ++ ub.1) then some (p ++ ub.1, ub.2) else none

/-- `getMetricUnit` at the canonical (source-literal) enumeration order. -/
def getMetricUnit (m : String) : Option (String × String) :=
  getMetricUnitWith units m

/-- `lintMetricUnit` of common.go, parameterized like `getMetricUnitWith`. -/
def lintMetricUnitWith (entries : List (String × String)) (name : String) :
    List String :=
  match getMetricUnitWith entries name with
  | none => []
  | some ub => if ub.1 = ub.2 then [] else [nonBaseUnitMsg ub.2 ub.1]

/-- `lintMetricUnit` at the canonical enumeration order. -/
def lintMetricUnit (name : String) : List String :=
  lintMetricUnitWith units name

/-- `hasBucketSuffix` of common.go. -/
def hasBucketSuffix (name : String) : Bool :=
  strHasSuffix name "_bucket"

/-- `lintNonHistogramNoBucket` of common.go. -/
def lintNonHistogramNoBucket (name : String) : List String :=
  if hasBucketSuffix name then [nonHistBucketMsg] else []

/-- `hasCountSuffix` of common.go. -/
def hasCountSuffix (name : String) : Bool :=
  strHasSuffix name "_count"

/-- `lintNonHistogramSummaryNoCount` of common.go. -/
def lintNonHistogramSummaryNoCount (name : String) : List String :=
  if hasCountSuffix name then [noCountSuffixMsg] else []

/-- `lintNonHistogramSummaryNoSum` of common.go (`NameSuffixSum = "_sum"`). -/
def lintNonHistogramSummaryNoSum (name : String) : List String :=
  if strHasSuffix name "_sum" then [noSumSuffixMsg] else []

/-- `lintNonHistogramNoLabelLe` of common.go: one issue per constant-label
key equal to `le` (in the order the map enumeration presents them),
followed by one issue per dynamic label name equal to `le`. -/
def lintNonHistogramNoLabelLe (constLabels : List (String × String))
    (labelNames : List String) : List String :=
  (constLabels.filterMap fun lv => if lv.1 = LabelLe then some leLabelMsg else none)
    ++ labelNames.filterMap fun ln => if ln = LabelLe then some leLabelMsg else none

/-- `lintNonSummaryNoLabelQuantile` of common.go: NOTE that this function
only scans the constant labels; its `labelNames` parameter is never read
in this revision of the source. -/
def lintNonSummaryNoLabelQuantile (constLabels : List (String × String))
    (labelNames : List String) : List String :=
  constLabels.filterMap fun lv =>
    if lv.1 = LabelQuantile then some quantileLabelMsg else none

/-- `lintNoMetricTypeInName` of common.go: ranges over the metric-type
table, skipping `UNTYPED`, and fires when the lowercased name contains
`_<typename>_` or ends with `_<typename>`. -/
def lintNoMetricTypeInName (name : String) : List String :=
  let n := strToLower name
  MetricType_name.filterMap fun it =>
    if it.1 = MetricType_UNTYPED then none
    else
      let typename := strToLower it.2
      if strContains n ("_" ++ typename ++ "_") || strHasSuffix n ("_" ++ typename)
      then some (noMetricTypeMsg typename) else none

/-- `lintReservedChars` of common.go. -/
def lintReservedChars (name : String) : List String :=
  if strContains name ":" then [reservedCharsMsg] else []

/-- `lintNameCamelCase` of common.go. -/
def lintNameCamelCase (name : String) : List String :=
  if camelCaseMatch name then [nameCamelMsg] else []

/-- `lintLabelNameCamelCase` of common.go: constant-label keys first, then
dynamic label names. -/
def lintLabelNameCamelCase (constLabels : List (String × String))
    (labelNames : List String) : List String :=
  (constLabels.filterMap fun lv => if camelCaseMatch lv.1 then some labelCamelMsg else none)
    ++ labelNames.filterMap fun ln => if camelCaseMatch ln then some labelCamelMsg else none

/-- `lintUnitAbbreviations` of common.go. -/
def lintUnitAbbreviations (name : String) : List String :=
  let n := strToLower name
  unitAbbreviations.filterMap fun s =>
    if strContains n ("_" ++ s ++ "_") || strHasSuffix n ("_" ++ s)
    then some abbrevUnitMsg else none

/-- The fields of `prometheus.Opts` read by the linter.  In client_golang,
`prometheus.CounterOpts` and `prometheus.GaugeOpts` are Go named types
with this same underlying structure, so both are embedded as `Opts`;
`ConstLabels` holds the `prometheus.Labels` map entries in observed
enumeration order. -/
structure Opts where
  Namespace : String
  Subsystem : String
  Name : String
  Help : String
  ConstLabels : List (String × String)
deriving DecidableEq

/-- The fields of `prometheus.HistogramOpts` read by the linter (the
bucket configuration is never consulted). -/
structure HistogramOpts where
  Namespace : String
  Subsystem : String
  Name : String
  Help : String
  ConstLabels : List (String × String)
deriving DecidableEq

/-- The fields of `prometheus.SummaryOpts` read by the linter (the
objectives configuration is never consulted). -/
structure SummaryOpts where
  Namespace : String
  Subsystem : String
  Name : String
  Help : String
  ConstLabels : List (String × String)
deriving DecidableEq

/-- The dynamic type of the `interface{}` value handed to `commonLint`:
one constructor per type the switch recognizes, plus `unknown` for a value
of any other dynamic type (carrying the `%T` rendering of that type). -/
inductive LintOptsValue where
  | opts (o : Opts)
  | counterOpts (o : Opts)
  | gaugeOpts (o : Opts)
  | histogramOpts (o : HistogramOpts)
  | summaryOpts (o : SummaryOpts)
  | unknown (typeName : String)

/-- `commonLint` of common.go, parameterized by the `units` enumeration
order.  The `default:` branch's `panic` is embedded as `Except.error` with
the panic message.  Note the `case prometheus.Opts` branch runs only the
help and unit checks; the `case prometheus.CounterOpts` and
`case prometheus.GaugeOpts` branches keep the source's fuller check lists
but are unreachable from the package's entry points, which convert both
option types to `prometheus.Opts` before calling. -/
def commonLintWith (entries : List (String × String)) :
    LintOptsValue → Except String (List String)
  | .opts o =>
    let fqName := BuildFQName o.Namespace o.Subsystem o.Name
    .ok (lintHelp o.Help ++ lintMetricUnitWith entries fqName)
  | .counterOpts o =>
    .ok (lintNoMetricTypeInName o.Name
      ++ lintReservedChars o.Name
      ++ lintNameCamelCase o.Name
      ++ lintUnitAbbreviations o.Name
      ++ lintNonHistogramNoBucket o.Name
      ++ lintNonHistogramSummaryNoCount o.Name
      ++ lintNonHistogramSummaryNoSum o.Name
      ++ lintNonHistogramNoLabelLe o.ConstLabels []
      ++ lintNonSummaryNoLabelQuantile o.ConstLabels []
      ++ lintLabelNameCamelCase o.ConstLabels [])
  | .gaugeOpts o =>
    .ok (lintHelp o.Help
      ++ lintNoMetricTypeInName o.Name
      ++ lintReservedChars o.Name
      ++ lintMetricUnitWith entries o.Name
      ++ lintNameCamelCase o.Name
      ++ lintUnitAbbreviations o.Name
      ++ lintNonHistogramNoBucket o.Name
      ++ lintNonHistogramSummaryNoCount o.Name
      ++ lintNonHistogramSummaryNoSum o.Name
      ++ lintNonHistogramNoLabelLe o.ConstLabels []
      ++ lintNonSummaryNoLabelQuantile o.ConstLabels []
      ++ lintLabelNameCamelCase o.ConstLabels [])
  | .histogramOpts o =>
    let fqName := BuildFQName o.Namespace o.Subsystem o.Name
    .ok (lintHelp o.Help
      ++ lintMetricUnitWith entries fqName
      ++ lintNoMetricTypeInName fqName
      ++ lintReservedChars fqName
      ++ lintNameCamelCase fqName
      ++ lintUnitAbbreviations fqName
      ++ lintNonSummaryNoLabelQuantile o.ConstLabels []
      ++ lintLabelNameCamelCase o.ConstLabels [])
  | .summaryOpts o =>
    let fqName := BuildFQName o.Namespace o.Subsystem o.Name
    .ok (lintHelp o.Help
      ++ lintMetricUnitWith entries fqName
      ++ lintNoMetricTypeInName fqName
      ++ lintReservedChars fqName
      ++ lintNonHistogramNoBucket fqName
      ++ lintNameCamelCase fqName
      ++ lintUnitAbbreviations fqName
      ++ lintNonHistogramNoLabelLe o.ConstLabels []
      ++ lintLabelNameCamelCase o.ConstLabels [])
  | .unknown typeName =>
    .error ("unknow metric type: " ++ typeName)

/-- `commonLint` at the canonical enumeration order. -/
def commonLint (opts : LintOptsValue) : Except String (List String) :=
  commonLintWith units opts

/-- `LintResult` of metriclint.go. -/
structure LintResult where
  MetricName : String
  Issues : List String
deriving DecidableEq

/-- `LintResult.String` of metriclint.go. -/
def LintResultString (lr : LintResult) : String :=
  lr.MetricName ++ ":" ++ joinComma lr.Issues

/-- `LintCounter` of metriclint.go.  The Go code calls
`commonLint(prometheus.Opts(counterOpts))`: the conversion makes the
dynamic type `prometheus.Opts`, embedded as the `.opts` constructor, on
which `commonLint` never panics, so the `getD []` that discharges the
`Except` modelling of `panic` is never taken. -/
def LintCounter (counterOpts : Opts) : LintResult :=
  let mn := BuildFQName counterOpts.Namespace counterOpts.Subsystem counterOpts.Name
  ⟨mn, ((commonLint (.opts counterOpts)).toOption.getD []) ++ lintCounterContainsTotal mn⟩

/-- `LintCounterVector` of metriclint.go (the Go `nil` constant-label
argument is the empty list). -/
def LintCounterVector (counterOpts : Opts) (labelNames : List String) : LintResult :=
  let result := LintCounter counterOpts
  ⟨result.MetricName,
    result.Issues
      ++ lintNonHistogramNoLabelLe [] labelNames
      ++ lintNonSummaryNoLabelQuantile [] labelNames
      ++ lintLabelNameCamelCase [] labelNames⟩

/-- `LintGauge` of metriclint.go, parameterized by the `units` enumeration
order; like `LintCounter` it calls `commonLint` on a converted
`prometheus.Opts` value. -/
def LintGaugeWith (entries : List (String × String)) (gaugeOpts : Opts) : LintResult :=
  let mn := BuildFQName gaugeOpts.Namespace gaugeOpts.Subsystem gaugeOpts.Name
  ⟨mn, ((commonLintWith entries (.opts gaugeOpts)).toOption.getD [])
        ++ lintNonCounterNoTotal mn⟩

/-- `LintGauge` at the canonical enumeration order. -/
def LintGauge (gaugeOpts : Opts) : LintResult :=
  LintGaugeWith units gaugeOpts

/-- `LintGaugeVector` of metriclint.go. -/
def LintGaugeVector (gaugeOpts : Opts) (labelNames : List String) : LintResult :=
  let result := LintGauge gaugeOpts
  ⟨result.MetricName,
    result.Issues
      ++ lintNonHistogramNoLabelLe [] labelNames
      ++ lintNonSummaryNoLabelQuantile [] labelNames
      ++ lintLabelNameCamelCase [] labelNames⟩

/-- `LintHistogram` of metriclint.go. -/
def LintHistogram (histogramOpts : HistogramOpts) : LintResult :=
  let mn := BuildFQName histogramOpts.Namespace histogramOpts.Subsystem histogramOpts.Name
  ⟨mn, ((commonLint (.histogramOpts histogramOpts)).toOption.getD [])
        ++ lintNonCounterNoTotal mn⟩

/-- `LintHistogramVector` of metriclint.go. -/
def LintHistogramVector (histogramOpts : HistogramOpts) (labelNames : List String) :
    LintResult :=
  let result := LintHistogram histogramOpts
  ⟨result.MetricName,
    result.Issues
      ++ lintNonSummaryNoLabelQuantile [] labelNames
      ++ lintLabelNameCamelCase [] labelNames⟩

/-- `LintSummary` of metriclint.go. -/
def LintSummary (summaryOpts : SummaryOpts) : LintResult :=
  let mn := BuildFQName summaryOpts.Namespace summaryOpts.Subsystem summaryOpts.Name
  ⟨mn, ((commonLint (.summaryOpts summaryOpts)).toOption.getD [])
        ++ lintNonCounterNoTotal mn⟩

/-- `LintSummaryVector` of metriclint.go. -/
def LintSummaryVector (summaryOpts : SummaryOpts) (labelNames : List String) :
    LintResult :=
  let result := LintSummary summaryOpts
  ⟨result.MetricName,
    result.Issues
      ++ lintNonHistogramNoLabelLe [] labelNames
      ++ lintLabelNameCamelCase [] labelNames⟩

/-- Modelled from the spec's words in §4.4 for claim C7: a kind word
occurring "as a standalone underscore-delimited token (bounded by `_` or
string start/end)" in the lowercased name is exactly an element of its
`_`-segmentation equal to the kind word. -/
def specStandaloneToken (name token : String) : Bool :=
  (splitOnUnderscore (strToLower name)).contains token

/-- The code-side firing condition of `lintNoMetricTypeInName` for one
kind word. -/
def typeInNameCond (name typename : String) : Bool :=
  strContains (strToLower name) ("_" ++ typename ++ "_")
    || strHasSuffix (strToLower name) ("_" ++ typename)

/-- The entries of the `units` map that the source literal lists before
`("inches", "meters")`. -/
def unitsFront : List (String × String) :=
  [("amperes", "amperes"),
   ("bytes", "bytes"),
   ("celsius", "celsius"),
   ("grams", "grams"),
   ("joules", "joules"),
   ("meters", "meters"),
   ("metres", "metres"),
   ("seconds", "seconds"),
   ("volts", "volts"),
   ("minutes", "seconds"),
   ("hours", "seconds"),
   ("days", "seconds"),
   ("weeks", "seconds"),
   ("kelvin", "celsius"),
   ("kelvins", "celsius"),
   ("fahrenheit", "celsius"),
   ("rankine", "celsius")]

/-- The entries of the `units` map that the source literal lists after
`("inches", "meters")`. -/
def unitsBack : List (String × String) :=
  [("yards", "meters"),
   ("miles", "meters"),
   ("bits", "bytes"),
   ("calories", "joules"),
   ("pounds", "grams"),
   ("ounces", "grams")]

/-- An alternative enumeration order of the same `units` map entries, with
`("inches", "meters")` visited first.  Go's `range` over a map may present
the entries in any order, so this order is as admissible as the literal
order. -/
def unitsInchesFirst : List (String × String) :=
  ("inches", "meters") :: (unitsFront ++ unitsBack)

/-! Helper lemmas. -/

theorem contains_eq_false_of_not_mem {l : List String} {a : String} (h : a ∉ l) :
    l.contains a = false := by
  simp [List.contains, List.elem_eq_mem, h]

theorem unitsInchesFirst_perm : List.Perm unitsInchesFirst units := by
  have h : units = unitsFront ++ ("inches", "meters") :: unitsBack := rfl
  rw [h]
  exact List.perm_middle.symm

theorem any_eq_of_perm {α : Type} {l₁ l₂ : List α} (h : List.Perm l₁ l₂) (p : α → Bool) :
    l₁.any p = l₂.any p := by
  cases h1 : l₁.any p <;> cases h2 : l₂.any p <;> try rfl
  · rcases List.any_eq_true.mp h2 with ⟨a, ha, hpa⟩
    have := List.any_eq_true.mpr ⟨a, h.mem_iff.mpr ha, hpa⟩
    simp [h1] at this
  · rcases List.any_eq_true.mp h1 with ⟨a, ha, hpa⟩
    have := List.any_eq_true.mpr ⟨a, h.mem_iff.mp ha, hpa⟩
    simp [h2] at this

theorem findSome?_isSome_eq_any {α β : Type} (f : α → Option β) (l : List α) :
    (l.findSome? f).isSome = l.any fun a => (f a).isSome := by
  induction l with
  | nil => rfl
  | cons a t ih => cases hfa : f a <;> simp [List.findSome?, hfa, ih]

theorem nonBaseUnitMsg_data (b u : String) :
    (nonBaseUnitMsg b u).data
      = 'u' :: ("se base unit \"" ++ b ++ "\" instead of \"" ++ u ++ "\"").data := rfl

theorem nonBaseUnitMsg_ne_of_head {b u x : String} (hx : x.data.head? ≠ some 'u') :
    nonBaseUnitMsg b u ≠ x := by
  intro h
  apply hx
  rw [← h, nonBaseUnitMsg_data]
  rfl

theorem noMetricTypeMsg_data (t : String) :
    (noMetricTypeMsg t).data
      = 'm' :: ("etric name should not include type '" ++ t ++ "'").data := rfl

theorem noMetricTypeMsg_ne_of_head {t x : String} (hx : x.data.head? ≠ some 'm') :
    noMetricTypeMsg t ≠ x := by
  intro h
  apply hx
  rw [← h, noMetricTypeMsg_data]
  rfl

theorem eq_noHelpMsg_of_mem {s h : String} (hm : s ∈ lintHelp h) : s = noHelpMsg := by
  unfold lintHelp at hm
  split at hm <;> simp_all

theorem mem_lintMetricUnitWith {es : List (String × String)} {s n : String}
    (hm : s ∈ lintMetricUnitWith es n) :
    ∃ ub : String × String, getMetricUnitWith es n = some ub ∧ s = nonBaseUnitMsg ub.2 ub.1 := by
  unfold lintMetricUnitWith at hm
  cases hgu : getMetricUnitWith es n with
  | none => rw [hgu] at hm; simp at hm
  | some ub =>
    rw [hgu] at hm
    split at hm <;> simp_all

theorem eq_counterHave_of_mem {s n : String} (hm : s ∈ lintCounterContainsTotal n) :
    s = counterHaveTotalMsg := by
  unfold lintCounterContainsTotal at hm
  split at hm <;> simp_all

theorem eq_counterNotHave_of_mem {s n : String} (hm : s ∈ lintNonCounterNoTotal n) :
    s = counterNotHaveTotalMsg := by
  unfold lintNonCounterNoTotal at hm
  split at hm <;> simp_all

theorem mem_filterMap_ite {α : Type} {l : List α} {c : α → Prop} [DecidablePred c] {msg s : String}
    (hm : s ∈ l.filterMap fun a => if c a then some msg else none) : s = msg := by
  rcases List.mem_filterMap.mp hm with ⟨a, _, hfa⟩
  split at hfa <;> simp_all

theorem eq_leLabelMsg_of_mem {s : String} {cl : List (String × String)} {L : List String}
    (hm : s ∈ lintNonHistogramNoLabelLe cl L) : s = leLabelMsg := by
  unfold lintNonHistogramNoLabelLe at hm
  rcases List.mem_append.mp hm with h | h <;> exact mem_filterMap_ite h

theorem eq_quantileLabelMsg_of_mem {s : String} {cl : List (String × String)} {L : List String}
    (hm : s ∈ lintNonSummaryNoLabelQuantile cl L) : s = quantileLabelMsg := by
  unfold lintNonSummaryNoLabelQuantile at hm
  exact mem_filterMap_ite hm

theorem eq_labelCamelMsg_of_mem {s : String} {cl : List (String × String)} {L : List String}
    (hm : s ∈ lintLabelNameCamelCase cl L) : s = labelCamelMsg := by
  unfold lintLabelNameCamelCase at hm
  rcases List.mem_append.mp hm with h | h <;> exact mem_filterMap_ite h

theorem eq_abbrevUnitMsg_of_mem {s n : String} (hm : s ∈ lintUnitAbbreviations n) :
    s = abbrevUnitMsg := by
  unfold lintUnitAbbreviations at hm
  exact mem_filterMap_ite hm

theorem eq_reservedCharsMsg_of_mem {s n : String} (hm : s ∈ lintReservedChars n) :
    s = reservedCharsMsg := by
  unfold lintReservedChars at hm
  split at hm <;> simp_all

theorem eq_nameCamelMsg_of_mem {s n : String} (hm : s ∈ lintNameCamelCase n) :
    s = nameCamelMsg := by
  unfold lintNameCamelCase at hm
  split at hm <;> simp_all

theorem eq_nonHistBucketMsg_of_mem {s n : String} (hm : s ∈ lintNonHistogramNoBucket n) :
    s = nonHistBucketMsg := by
  unfold lintNonHistogramNoBucket at hm
  split at hm <;> simp_all

theorem mem_lintNoMetricTypeInName {s n : String} (hm : s ∈ lintNoMetricTypeInName n) :
    ∃ t, s = noMetricTypeMsg t := by
  unfold lintNoMetricTypeInName at hm
  rcases List.mem_filterMap.mp hm with ⟨a, _, hfa⟩
  split at hfa
  · simp at hfa
  · refine ⟨strToLower a.2, ?_⟩
    dsimp only at hfa
    split at hfa <;> simp_all

/-- The issue list of `LintCounter`, written out. -/
theorem LintCounter_issues (o : Opts) :
    (LintCounter o).Issues
      = lintHelp o.Help
        ++ lintMetricUnit (BuildFQName o.Namespace o.Subsystem o.Name)
        ++ lintCounterContainsTotal (BuildFQName o.Namespace o.Subsystem o.Name) := rfl

/-- The issue list of `LintGauge`, written out. -/
theorem LintGauge_issues (o : Opts) :
    (LintGauge o).Issues
      = lintHelp o.Help
        ++ lintMetricUnit (BuildFQName o.Namespace o.Subsystem o.Name)
        ++ lintNonCounterNoTotal (BuildFQName o.Namespace o.Subsystem o.Name) := rfl

/-- Every issue `LintCounter` can emit is the help message, a non-base-unit
message, or the counter-total message. -/
theorem counter_issue_forms {o : Opts} {s : String} (hs : s ∈ (LintCounter o).Issues) :
    s = noHelpMsg ∨ (∃ b u, s = nonBaseUnitMsg b u) ∨ s = counterHaveTotalMsg := by
  rw [LintCounter_issues] at hs
  rcases List.mem_append.mp hs with h1 | h2
  · rcases List.mem_append.mp h1 with ha | hb
    · exact Or.inl (eq_noHelpMsg_of_mem ha)
    · rcases mem_lintMetricUnitWith hb with ⟨ub, _, hmsg⟩
      exact Or.inr (Or.inl ⟨ub.2, ub.1, hmsg⟩)
  · exact Or.inr (Or.inr (eq_counterHave_of_mem h2))

/-- Every issue `LintGauge` can emit is the help message, a non-base-unit
message, or the no-total message. -/
theorem gauge_issue_forms {o : Opts} {s : String} (hs : s ∈ (LintGauge o).Issues) :
    s = noHelpMsg ∨ (∃ b u, s = nonBaseUnitMsg b u) ∨ s = counterNotHaveTotalMsg := by
  rw [LintGauge_issues] at hs
  rcases List.mem_append.mp hs with h1 | h2
  · rcases List.mem_append.mp h1 with ha | hb
    · exact Or.inl (eq_noHelpMsg_of_mem ha)
    · rcases mem_lintMetricUnitWith hb with ⟨ub, _, hmsg⟩
      exact Or.inr (Or.inl ⟨ub.2, ub.1, hmsg⟩)
  · exact Or.inr (Or.inr (eq_counterNotHave_of_mem h2))

/-- The issue list of `LintHistogram`, written out. -/
theorem LintHistogram_issues (o : HistogramOpts) :
    (LintHistogram o).Issues
      = lintHelp o.Help
        ++ lintMetricUnit (BuildFQName o.Namespace o.Subsystem o.Name)
        ++ lintNoMetricTypeInName (BuildFQName o.Namespace o.Subsystem o.Name)
        ++ lintReservedChars (BuildFQName o.Namespace o.Subsystem o.Name)
        ++ lintNameCamelCase (BuildFQName o.Namespace o.Subsystem o.Name)
        ++ lintUnitAbbreviations (BuildFQName o.Namespace o.Subsystem o.Name)
        ++ lintNonSummaryNoLabelQuantile o.ConstLabels []
        ++ lintLabelNameCamelCase o.ConstLabels []
        ++ lintNonCounterNoTotal (BuildFQName o.Namespace o.Subsystem o.Name) := rfl

/-- The issue list of `LintSummary`, written out. -/
theorem LintSummary_issues (o : SummaryOpts) :
    (LintSummary o).Issues
      = lintHelp o.Help
        ++ lintMetricUnit (BuildFQName o.Namespace o.Subsystem o.Name)
        ++ lintNoMetricTypeInName (BuildFQName o.Namespace o.Subsystem o.Name)
        ++ lintReservedChars (BuildFQName o.Namespace o.Subsystem o.Name)
        ++ lintNonHistogramNoBucket (BuildFQName o.Namespace o.Subsystem o.Name)
        ++ lintNameCamelCase (BuildFQName o.Namespace o.Subsystem o.Name)
        ++ lintUnitAbbreviations (BuildFQName o.Namespace o.Subsystem o.Name)
        ++ lintNonHistogramNoLabelLe o.ConstLabels []
        ++ lintLabelNameCamelCase o.ConstLabels []
        ++ lintNonCounterNoTotal (BuildFQName o.Namespace o.Subsystem o.Name) := rfl

/-- `LintCounterVector` only appends to `LintCounter`'s list. -/
theorem LintCounterVector_issues (o : Opts) (L : List String) :
    (LintCounterVector o L).Issues
      = (LintCounter o).Issues
        ++ lintNonHistogramNoLabelLe [] L
        ++ lintNonSummaryNoLabelQuantile [] L
        ++ lintLabelNameCamelCase [] L := rfl

/-- `LintGaugeVector` only appends to `LintGauge`'s list. -/
theorem LintGaugeVector_issues (o : Opts) (L : List String) :
    (LintGaugeVector o L).Issues
      = (LintGauge o).Issues
        ++ lintNonHistogramNoLabelLe [] L
        ++ lintNonSummaryNoLabelQuantile [] L
        ++ lintLabelNameCamelCase [] L := rfl

/-- `LintHistogramVector` only appends to `LintHistogram`'s list. -/
theorem LintHistogramVector_issues (o : HistogramOpts) (L : List String) :
    (LintHistogramVector o L).Issues
      = (LintHistogram o).Issues
        ++ lintNonSummaryNoLabelQuantile [] L
        ++ lintLabelNameCamelCase [] L := rfl

/-- `LintSummaryVector` only appends to `LintSummary`'s list. -/
theorem LintSummaryVector_issues (o : SummaryOpts) (L : List String) :
    (LintSummaryVector o L).Issues
      = (LintSummary o).Issues
        ++ lintNonHistogramNoLabelLe [] L
        ++ lintLabelNameCamelCase [] L := rfl

/-- Every issue `LintHistogram` can emit, by message form. -/
theorem histogram_issue_forms {o : HistogramOpts} {s : String}
    (hs : s ∈ (LintHistogram o).Issues) :
    s = noHelpMsg ∨ (∃ b u, s = nonBaseUnitMsg b u) ∨ (∃ t, s = noMetricTypeMsg t)
      ∨ s = reservedCharsMsg ∨ s = nameCamelMsg ∨ s = abbrevUnitMsg
      ∨ s = quantileLabelMsg ∨ s = labelCamelMsg ∨ s = counterNotHaveTotalMsg := by
  rw [LintHistogram_issues] at hs
  simp only [List.mem_append] at hs
  rcases hs with ((((((((h | h) | h) | h) | h) | h) | h) | h) | h)
  · exact Or.inl (eq_noHelpMsg_of_mem h)
  · rcases mem_lintMetricUnitWith h with ⟨ub, _, hmsg⟩
    exact Or.inr (Or.inl ⟨ub.2, ub.1, hmsg⟩)
  · exact Or.inr (Or.inr (Or.inl (mem_lintNoMetricTypeInName h)))
  · exact Or.inr (Or.inr (Or.inr (Or.inl (eq_reservedCharsMsg_of_mem h))))
  · exact Or.inr (Or.inr (Or.inr (Or.inr (Or.inl (eq_nameCamelMsg_of_mem h)))))
  · exact Or.inr (Or.inr (Or.inr (Or.inr (Or.inr (Or.inl (eq_abbrevUnitMsg_of_mem h))))))
  · exact Or.inr (Or.inr (Or.inr (Or.inr (Or.inr (Or.inr (Or.inl
      (eq_quantileLabelMsg_of_mem h)))))))
  · exact Or.inr (Or.inr (Or.inr (Or.inr (Or.inr (Or.inr (Or.inr (Or.inl
      (eq_labelCamelMsg_of_mem h))))))))
  · exact Or.inr (Or.inr (Or.inr (Or.inr (Or.inr (Or.inr (Or.inr (Or.inr
      (eq_counterNotHave_of_mem h))))))))

/-- Every issue `LintSummary` can emit, by message form. -/
theorem summary_issue_forms {o : SummaryOpts} {s : String}
    (hs : s ∈ (LintSummary o).Issues) :
    s = noHelpMsg ∨ (∃ b u, s = nonBaseUnitMsg b u) ∨ (∃ t, s = noMetricTypeMsg t)
      ∨ s = reservedCharsMsg ∨ s = nonHistBucketMsg ∨ s = nameCamelMsg ∨ s = abbrevUnitMsg
      ∨ s = leLabelMsg ∨ s = labelCamelMsg ∨ s = counterNotHaveTotalMsg := by
  rw [LintSummary_issues] at hs
  simp only [List.mem_append] at hs
  rcases hs with (((((((((h | h) | h) | h) | h) | h) | h) | h) | h) | h)
  · exact Or.inl (eq_noHelpMsg_of_mem h)
  · rcases mem_lintMetricUnitWith h with ⟨ub, _, hmsg⟩
    exact Or.inr (Or.inl ⟨ub.2, ub.1, hmsg⟩)
  · exact Or.inr (Or.inr (Or.inl (mem_lintNoMetricTypeInName h)))
  · exact Or.inr (Or.inr (Or.inr (Or.inl (eq_reservedCharsMsg_of_mem h))))
  · exact Or.inr (Or.inr (Or.inr (Or.inr (Or.inl (eq_nonHistBucketMsg_of_mem h)))))
  · exact Or.inr (Or.inr (Or.inr (Or.inr (Or.inr (Or.inl (eq_nameCamelMsg_of_mem h))))))
  · exact Or.inr (Or.inr (Or.inr (Or.inr (Or.inr (Or.inr (Or.inl
      (eq_abbrevUnitMsg_of_mem h)))))))
  · exact Or.inr (Or.inr (Or.inr (Or.inr (Or.inr (Or.inr (Or.inr (Or.inl
      (eq_leLabelMsg_of_mem h))))))))
  · exact Or.inr (Or.inr (Or.inr (Or.inr (Or.inr (Or.inr (Or.inr (Or.inr (Or.inl
      (eq_labelCamelMsg_of_mem h)))))))))
  · exact Or.inr (Or.inr (Or.inr (Or.inr (Or.inr (Or.inr (Or.inr (Or.inr (Or.inr
      (eq_counterNotHave_of_mem h)))))))))

/-- Every issue a vector entry point appends beyond its non-vector
counterpart is an le-label, quantile-label, or label-camelCase message. -/
theorem vector_extra_forms {s : String} {L : List String}
    (hs : s ∈ lintNonHistogramNoLabelLe [] L
            ++ lintNonSummaryNoLabelQuantile [] L
            ++ lintLabelNameCamelCase [] L) :
    s = leLabelMsg ∨ s = quantileLabelMsg ∨ s = labelCamelMsg := by
  rcases List.mem_append.mp hs with h | h
  · rcases List.mem_append.mp h with h' | h'
    · exact Or.inl (eq_leLabelMsg_of_mem h')
    · exact Or.inr (Or.inl (eq_quantileLabelMsg_of_mem h'))
  · exact Or.inr (Or.inr (eq_labelCamelMsg_of_mem h))

theorem not_mem_counter_of_forms {o : Opts} {x : String} (h1 : x ≠ noHelpMsg)
    (hu : x.data.head? ≠ some 'u') (h3 : x ≠ counterHaveTotalMsg) :
    x ∉ (LintCounter o).Issues := by
  intro hmem
  rcases counter_issue_forms hmem with h | ⟨b, u, h⟩ | h
  · exact h1 h
  · exact nonBaseUnitMsg_ne_of_head hu h.symm
  · exact h3 h

theorem not_mem_gauge_of_forms {o : Opts} {x : String} (h1 : x ≠ noHelpMsg)
    (hu : x.data.head? ≠ some 'u') (h3 : x ≠ counterNotHaveTotalMsg) :
    x ∉ (LintGauge o).Issues := by
  intro hmem
  rcases gauge_issue_forms hmem with h | ⟨b, u, h⟩ | h
  · exact h1 h
  · exact nonBaseUnitMsg_ne_of_head hu h.symm
  · exact h3 h

theorem not_mem_histogram_of_forms {o : HistogramOpts} {x : String}
    (hu : x.data.head? ≠ some 'u') (hm : x.data.head? ≠ some 'm')
    (h1 : x ≠ noHelpMsg) (h2 : x ≠ quantileLabelMsg) (h3 : x ≠ labelCamelMsg)
    (h4 : x ≠ counterNotHaveTotalMsg) : x ∉ (LintHistogram o).Issues := by
  intro hmem
  rcases histogram_issue_forms hmem with
    h | ⟨b, u, h⟩ | ⟨t, h⟩ | h | h | h | h | h | h
  · exact h1 h
  · exact nonBaseUnitMsg_ne_of_head hu h.symm
  · exact noMetricTypeMsg_ne_of_head hm h.symm
  · exact hm (by rw [h]; rfl)
  · exact hm (by rw [h]; rfl)
  · exact hm (by rw [h]; rfl)
  · exact h2 h
  · exact h3 h
  · exact h4 h

theorem not_mem_summary_of_forms {o : SummaryOpts} {x : String}
    (hu : x.data.head? ≠ some 'u') (hm : x.data.head? ≠ some 'm')
    (h1 : x ≠ noHelpMsg) (h2 : x ≠ nonHistBucketMsg) (h3 : x ≠ leLabelMsg)
    (h4 : x ≠ labelCamelMsg) (h5 : x ≠ counterNotHaveTotalMsg) :
    x ∉ (LintSummary o).Issues := by
  intro hmem
  rcases summary_issue_forms hmem with
    h | ⟨b, u, h⟩ | ⟨t, h⟩ | h | h | h | h | h | h | h
  · exact h1 h
  · exact nonBaseUnitMsg_ne_of_head hu h.symm
  · exact noMetricTypeMsg_ne_of_head hm h.symm
  · exact hm (by rw [h]; rfl)
  · exact h2 h
  · exact hm (by rw [h]; rfl)
  · exact hm (by rw [h]; rfl)
  · exact h3 h
  · exact h4 h
  · exact h5 h

/-! Claim theorems. -/

/-- **C1**: the claim says `LintGauge` (and `LintCounter`) report the
reserved-character issue for any name containing `:`.  The code does not:
both entry points convert their options to `prometheus.Opts`, whose
`commonLint` branch runs only the help and unit checks, so
`LintGauge({name:"lint_:_numbers", help:"x"})` returns an empty issue list
even though `lintReservedChars` itself would fire on that name.  This
theorem evaluates the embedding at the failing inputs. -/
theorem c1_reserved_check_unreachable :
    (LintGauge ⟨"", "", "lint_:_numbers", "x", []⟩).Issues = []
      ∧ (LintCounter ⟨"", "", "lint_:_total", "x", []⟩).Issues = []
      ∧ lintReservedChars "lint_:_numbers" = [reservedCharsMsg] := by
  refine ⟨by decide, by decide, by decide⟩

/-- **C2**: the claim says the non-Summary vector entry points report the
quantile-label issue once per dynamic label name equal to `"quantile"`.
The code does not: `lintNonSummaryNoLabelQuantile` never reads its
`labelNames` argument, so all three vector entry points ignore a
`"quantile"` dynamic label.  This theorem evaluates the embedding at the
failing inputs. -/
theorem c2_quantile_label_names_ignored :
    (LintCounterVector ⟨"", "", "lint_test_total", "this is help message",
        [("lname", "lvalue")]⟩ ["quantile", "lname2"]).Issues = []
      ∧ (LintGaugeVector ⟨"", "", "lint_test_numbers", "x", []⟩ ["quantile"]).Issues = []
      ∧ (LintHistogramVector ⟨"", "", "lint_test_seconds", "x", []⟩ ["quantile"]).Issues = []
      ∧ lintNonSummaryNoLabelQuantile [] ["quantile", "quantile"] = [] := by
  refine ⟨by decide, by decide, by decide, by decide⟩

/-- **C8**: the internal kind dispatcher `commonLint` fails loudly (the
`default:` branch panics, embedded as `Except.error`) on any value that is
not one of the five recognized option types, and returns normally on every
recognized one. -/
theorem c8_dispatcher_fails_loudly :
    (∀ t : String, commonLint (.unknown t) = .error ("unknow metric type: " ++ t))
      ∧ (∀ o : Opts, ∃ issues, commonLint (.opts o) = .ok issues)
      ∧ (∀ o : Opts, ∃ issues, commonLint (.counterOpts o) = .ok issues)
      ∧ (∀ o : Opts, ∃ issues, commonLint (.gaugeOpts o) = .ok issues)
      ∧ (∀ o : HistogramOpts, ∃ issues, commonLint (.histogramOpts o) = .ok issues)
      ∧ (∀ o : SummaryOpts, ∃ issues, commonLint (.summaryOpts o) = .ok issues) :=
  ⟨fun _ => rfl, fun _ => ⟨_, rfl⟩, fun _ => ⟨_, rfl⟩, fun _ => ⟨_, rfl⟩,
    fun _ => ⟨_, rfl⟩, fun _ => ⟨_, rfl⟩⟩

/-- **C9**: rendering a `LintResult` yields the fully-qualified name, a
colon, and the issues joined by commas in list order; an empty issue list
renders as the name followed by a bare colon.  The last conjunct checks
the spec's end-to-end example. -/
theorem c9_render_format :
    (∀ lr : LintResult, LintResultString lr = lr.MetricName ++ ":" ++ joinComma lr.Issues)
      ∧ (∀ mn : String, LintResultString ⟨mn, []⟩ = mn ++ ":")
      ∧ (∀ s : String, joinComma [s] = s)
      ∧ (∀ (s t : String) (rest : List String),
          joinComma (s :: t :: rest) = s ++ "," ++ joinComma (t :: rest))
      ∧ LintResultString (LintCounter ⟨"", "", "lint_test_suffix", "x", []⟩)
          = "lint_test_suffix:counter metrics should have \"_total\" suffix" := by
  refine ⟨fun lr => rfl, fun mn => ?_, fun s => rfl, fun s t rest => rfl, by decide⟩
  simp only [LintResultString, joinComma, String.append_empty]

/-- **C4**: every Counter lint call whose fully-qualified name lacks the
`_total` suffix reports the have-total issue; every Gauge, Histogram, or
Summary lint call whose fully-qualified name has the suffix reports the
not-have-total issue; and no call can contain both messages, because the
counter paths never emit the not-have message and the other paths never
emit the have message. -/
theorem c4_total_suffix_rules :
    (∀ o : Opts, hasTotalSuffix (LintCounter o).MetricName = false →
        counterHaveTotalMsg ∈ (LintCounter o).Issues)
      ∧ (∀ (o : Opts) (L : List String),
          hasTotalSuffix (LintCounterVector o L).MetricName = false →
          counterHaveTotalMsg ∈ (LintCounterVector o L).Issues)
      ∧ (∀ o : Opts, hasTotalSuffix (LintGauge o).MetricName = true →
          counterNotHaveTotalMsg ∈ (LintGauge o).Issues)
      ∧ (∀ (o : Opts) (L : List String),
          hasTotalSuffix (LintGaugeVector o L).MetricName = true →
          counterNotHaveTotalMsg ∈ (LintGaugeVector o L).Issues)
      ∧ (∀ o : HistogramOpts, hasTotalSuffix (LintHistogram o).MetricName = true →
          counterNotHaveTotalMsg ∈ (LintHistogram o).Issues)
      ∧ (∀ (o : HistogramOpts) (L : List String),
          hasTotalSuffix (LintHistogramVector o L).MetricName = true →
          counterNotHaveTotalMsg ∈ (LintHistogramVector o L).Issues)
      ∧ (∀ o : SummaryOpts, hasTotalSuffix (LintSummary o).MetricName = true →
          counterNotHaveTotalMsg ∈ (LintSummary o).Issues)
      ∧ (∀ (o : SummaryOpts) (L : List String),
          hasTotalSuffix (LintSummaryVector o L).MetricName = true →
          counterNotHaveTotalMsg ∈ (LintSummaryVector o L).Issues)
      ∧ (∀ o : Opts, (LintCounter o).Issues.contains counterNotHaveTotalMsg = false)
      ∧ (∀ (o : Opts) (L : List String),
          (LintCounterVector o L).Issues.contains counterNotHaveTotalMsg = false)
      ∧ (∀ o : Opts, (LintGauge o).Issues.contains counterHaveTotalMsg = false)
      ∧ (∀ (o : Opts) (L : List String),
          (LintGaugeVector o L).Issues.contains counterHaveTotalMsg = false)
      ∧ (∀ o : HistogramOpts, (LintHistogram o).Issues.contains counterHaveTotalMsg = false)
      ∧ (∀ (o : HistogramOpts) (L : List String),
          (LintHistogramVector o L).Issues.contains counterHaveTotalMsg = false)
      ∧ (∀ o : SummaryOpts, (LintSummary o).Issues.contains counterHaveTotalMsg = false)
      ∧ (∀ (o : SummaryOpts) (L : List String),
          (LintSummaryVector o L).Issues.contains counterHaveTotalMsg = false) := by
  have hc : ∀ o : Opts, hasTotalSuffix (LintCounter o).MetricName = false →
      counterHaveTotalMsg ∈ (LintCounter o).Issues := by
    intro o h
    rw [LintCounter_issues]
    apply List.mem_append_right
    have h' : hasTotalSuffix (BuildFQName o.Namespace o.Subsystem o.Name) = false := h
    simp [lintCounterContainsTotal, h']
  have hg : ∀ o : Opts, hasTotalSuffix (LintGauge o).MetricName = true →
      counterNotHaveTotalMsg ∈ (LintGauge o).Issues := by
    intro o h
    rw [LintGauge_issues]
    apply List.mem_append_right
    have h' : hasTotalSuffix (BuildFQName o.Namespace o.Subsystem o.Name) = true := h
    simp [lintNonCounterNoTotal, h']
  have hh : ∀ o : HistogramOpts, hasTotalSuffix (LintHistogram o).MetricName = true →
      counterNotHaveTotalMsg ∈ (LintHistogram o).Issues := by
    intro o h
    rw [LintHistogram_issues]
    apply List.mem_append_right
    have h' : hasTotalSuffix (BuildFQName o.Namespace o.Subsystem o.Name) = true := h
    simp [lintNonCounterNoTotal, h']
  have hs : ∀ o : SummaryOpts, hasTotalSuffix (LintSummary o).MetricName = true →
      counterNotHaveTotalMsg ∈ (LintSummary o).Issues := by
    intro o h
    rw [LintSummary_issues]
    apply List.mem_append_right
    have h' : hasTotalSuffix (BuildFQName o.Namespace o.Subsystem o.Name) = true := h
    simp [lintNonCounterNoTotal, h']
  have ncm : ∀ o : Opts, counterNotHaveTotalMsg ∉ (LintCounter o).Issues :=
    fun _ => not_mem_counter_of_forms (by decide) (by decide) (by decide)
  have ngm : ∀ o : Opts, counterHaveTotalMsg ∉ (LintGauge o).Issues :=
    fun _ => not_mem_gauge_of_forms (by decide) (by decide) (by decide)
  have nhm : ∀ o : HistogramOpts, counterHaveTotalMsg ∉ (LintHistogram o).Issues :=
    fun _ => not_mem_histogram_of_forms (by decide) (by decide) (by decide) (by decide)
      (by decide) (by decide)
  have nsm : ∀ o : SummaryOpts, counterHaveTotalMsg ∉ (LintSummary o).Issues :=
    fun _ => not_mem_summary_of_forms (by decide) (by decide) (by decide) (by decide)
      (by decide) (by decide) (by decide)
  have ncvm : ∀ (o : Opts) (L : List String),
      counterNotHaveTotalMsg ∉ (LintCounterVector o L).Issues := by
    intro o L hmem
    rw [LintCounterVector_issues] at hmem
    simp only [List.mem_append] at hmem
    rcases hmem with ((h | h) | h) | h
    · exact ncm o h
    · exact absurd (eq_leLabelMsg_of_mem h) (by decide)
    · exact absurd (eq_quantileLabelMsg_of_mem h) (by decide)
    · exact absurd (eq_labelCamelMsg_of_mem h) (by decide)
  have ngvm : ∀ (o : Opts) (L : List String),
      counterHaveTotalMsg ∉ (LintGaugeVector o L).Issues := by
    intro o L hmem
    rw [LintGaugeVector_issues] at hmem
    simp only [List.mem_append] at hmem
    rcases hmem with ((h | h) | h) | h
    · exact ngm o h
    · exact absurd (eq_leLabelMsg_of_mem h) (by decide)
    · exact absurd (eq_quantileLabelMsg_of_mem h) (by decide)
    · exact absurd (eq_labelCamelMsg_of_mem h) (by decide)
  have nhvm : ∀ (o : HistogramOpts) (L : List String),
      counterHaveTotalMsg ∉ (LintHistogramVector o L).Issues := by
    intro o L hmem
    rw [LintHistogramVector_issues] at hmem
    simp only [List.mem_append] at hmem
    rcases hmem with (h | h) | h
    · exact nhm o h
    · exact absurd (eq_quantileLabelMsg_of_mem h) (by decide)
    · exact absurd (eq_labelCamelMsg_of_mem h) (by decide)
  have nsvm : ∀ (o : SummaryOpts) (L : List String),
      counterHaveTotalMsg ∉ (LintSummaryVector o L).Issues := by
    intro o L hmem
    rw [LintSummaryVector_issues] at hmem
    simp only [List.mem_append] at hmem
    rcases hmem with (h | h) | h
    · exact nsm o h
    · exact absurd (eq_leLabelMsg_of_mem h) (by decide)
    · exact absurd (eq_labelCamelMsg_of_mem h) (by decide)
  refine ⟨hc, ?_, hg, ?_, hh, ?_, hs, ?_,
    fun o => contains_eq_false_of_not_mem (ncm o),
    fun o L => contains_eq_false_of_not_mem (ncvm o L),
    fun o => contains_eq_false_of_not_mem (ngm o),
    fun o L => contains_eq_false_of_not_mem (ngvm o L),
    fun o => contains_eq_false_of_not_mem (nhm o),
    fun o L => contains_eq_false_of_not_mem (nhvm o L),
    fun o => contains_eq_false_of_not_mem (nsm o),
    fun o L => contains_eq_false_of_not_mem (nsvm o L)⟩
  · intro o L h
    rw [LintCounterVector_issues]
    exact List.mem_append_left _ (List.mem_append_left _ (List.mem_append_left _ (hc o h)))
  · intro o L h
    rw [LintGaugeVector_issues]
    exact List.mem_append_left _ (List.mem_append_left _ (List.mem_append_left _ (hg o h)))
  · intro o L h
    rw [LintHistogramVector_issues]
    exact List.mem_append_left _ (List.mem_append_left _ (hh o h))
  · intro o L h
    rw [LintSummaryVector_issues]
    exact List.mem_append_left _ (List.mem_append_left _ (hs o h))

/-- Witness for **C4** at the spec's example: `lint_test_suffix` lacks the
`_total` suffix and `LintCounter` reports the have-total issue. -/
theorem c4_total_suffix_rules_witness :
    hasTotalSuffix (LintCounter ⟨"", "", "lint_test_suffix", "x", []⟩).MetricName = false
      ∧ counterHaveTotalMsg ∈ (LintCounter ⟨"", "", "lint_test_suffix", "x", []⟩).Issues :=
  ⟨by decide, c4_total_suffix_rules.1 ⟨"", "", "lint_test_suffix", "x", []⟩ (by decide)⟩

/-- **C5**: each vector entry point's issue list extends the corresponding
non-vector entry point's list on the right (the non-vector list is an
initial segment), and on a Counter with dynamic labels `["le", "x"]`
exactly the le-label issue is appended. -/
theorem c5_vector_extends_nonvector :
    (∀ (o : Opts) (L : List String), ∃ extra,
        (LintCounterVector o L).Issues = (LintCounter o).Issues ++ extra)
      ∧ (∀ (o : Opts) (L : List String), ∃ extra,
          (LintGaugeVector o L).Issues = (LintGauge o).Issues ++ extra)
      ∧ (∀ (o : HistogramOpts) (L : List String), ∃ extra,
          (LintHistogramVector o L).Issues = (LintHistogram o).Issues ++ extra)
      ∧ (∀ (o : SummaryOpts) (L : List String), ∃ extra,
          (LintSummaryVector o L).Issues = (LintSummary o).Issues ++ extra)
      ∧ (∀ o : Opts,
          (LintCounterVector o ["le", "x"]).Issues = (LintCounter o).Issues ++ [leLabelMsg]) := by
  refine
    ⟨fun o L => ⟨lintNonHistogramNoLabelLe [] L
        ++ (lintNonSummaryNoLabelQuantile [] L ++ lintLabelNameCamelCase [] L), ?_⟩,
      fun o L => ⟨lintNonHistogramNoLabelLe [] L
        ++ (lintNonSummaryNoLabelQuantile [] L ++ lintLabelNameCamelCase [] L), ?_⟩,
      fun o L => ⟨lintNonSummaryNoLabelQuantile [] L ++ lintLabelNameCamelCase [] L, ?_⟩,
      fun o L => ⟨lintNonHistogramNoLabelLe [] L ++ lintLabelNameCamelCase [] L, ?_⟩,
      fun o => ?_⟩
  · rw [LintCounterVector_issues, List.append_assoc, List.append_assoc]
  · rw [LintGaugeVector_issues, List.append_assoc, List.append_assoc]
  · rw [LintHistogramVector_issues, List.append_assoc]
  · rw [LintSummaryVector_issues, List.append_assoc]
  · have e1 : lintNonHistogramNoLabelLe [] ["le", "x"] = [leLabelMsg] := by decide
    have e2 : lintNonSummaryNoLabelQuantile [] ["le", "x"] = [] := by decide
    have e3 : lintLabelNameCamelCase [] ["le", "x"] = [] := by decide
    rw [LintCounterVector_issues, e1, e2, e3, List.append_nil, List.append_nil]

/-- **C10**: `LintCounter` and `LintGauge` never read the constant labels,
so two descriptors differing only there produce identical results, and no
le-label, quantile-label, or label-camelCase issue is ever emitted by
either entry point. -/
theorem c10_const_labels_ignored :
    (∀ (ns ss n h : String) (cl1 cl2 : List (String × String)),
        LintCounter ⟨ns, ss, n, h, cl1⟩ = LintCounter ⟨ns, ss, n, h, cl2⟩)
      ∧ (∀ (ns ss n h : String) (cl1 cl2 : List (String × String)),
          LintGauge ⟨ns, ss, n, h, cl1⟩ = LintGauge ⟨ns, ss, n, h, cl2⟩)
      ∧ (∀ o : Opts, (LintCounter o).Issues.contains leLabelMsg = false
          ∧ (LintCounter o).Issues.contains quantileLabelMsg = false
          ∧ (LintCounter o).Issues.contains labelCamelMsg = false)
      ∧ (∀ o : Opts, (LintGauge o).Issues.contains leLabelMsg = false
          ∧ (LintGauge o).Issues.contains quantileLabelMsg = false
          ∧ (LintGauge o).Issues.contains labelCamelMsg = false) := by
  refine ⟨fun ns ss n h cl1 cl2 => rfl, fun ns ss n h cl1 cl2 => rfl,
    fun o => ⟨?_, ?_, ?_⟩, fun o => ⟨?_, ?_, ?_⟩⟩ <;>
    first
      | exact contains_eq_false_of_not_mem
          (not_mem_counter_of_forms (by decide) (by decide) (by decide))
      | exact contains_eq_false_of_not_mem
          (not_mem_gauge_of_forms (by decide) (by decide) (by decide))

/-- **C3** counterexample: two admissible enumeration orders of the
`units` map (the literal order and the same entries with `inches` first)
make the same `LintGauge` invocation on `lint_hours_inches` return
different issue lists (`hours`→`seconds` versus `inches`→`meters`), so
the issue list is not determined by the descriptor alone. -/
theorem c3_counterexample :
    List.Perm unitsInchesFirst units
      ∧ (LintGaugeWith unitsInchesFirst ⟨"", "", "lint_hours_inches", "x", []⟩).Issues
          ≠ (LintGaugeWith units ⟨"", "", "lint_hours_inches", "x", []⟩).Issues :=
  ⟨unitsInchesFirst_perm, by decide⟩

/-- **C3** amended: for a fixed observed enumeration order of the `units`
map the engine is a pure function of the descriptor, and across orders
whether a unit is detected at all is invariant; but which unit is reported
may differ, so only the order-relative statement holds.  This theorem
proves the invariant part: under any permutation of the units table the
unit detector's success is unchanged. -/
theorem c3_amended_order_invariance :
    ∀ es : List (String × String), List.Perm es units →
      ∀ m : String, (getMetricUnitWith es m).isSome = (getMetricUnit m).isSome := by
  intro es hperm m
  simp only [getMetricUnit, getMetricUnitWith, findSome?_isSome_eq_any]
  exact any_eq_of_perm hperm _

/-- Witness for **C3** amended, at the inches-first enumeration order and
the counterexample's metric name. -/
theorem c3_amended_order_invariance_witness :
    List.Perm unitsInchesFirst units
      ∧ (getMetricUnitWith unitsInchesFirst "lint_hours_inches").isSome
          = (getMetricUnit "lint_hours_inches").isSome :=
  ⟨unitsInchesFirst_perm,
    c3_amended_order_invariance unitsInchesFirst unitsInchesFirst_perm "lint_hours_inches"⟩

/-- **C6**: when the detected unit already is the base unit no issue is
raised; when it is a non-base unit exactly one `use base unit ...` issue
is raised; when nothing is detected no issue is raised; and the spec's two
examples behave as claimed. -/
theorem c6_unit_idempotent :
    (∀ n u b, getMetricUnit n = some (u, b) →
        (u = b → lintMetricUnit n = [])
          ∧ (u ≠ b → lintMetricUnit n = [nonBaseUnitMsg b u]))
      ∧ (∀ n, getMetricUnit n = none → lintMetricUnit n = [])
      ∧ lintMetricUnit "request_seconds_total" = []
      ∧ lintMetricUnit "request_hours_total" = [nonBaseUnitMsg "seconds" "hours"] := by
  refine ⟨?_, ?_, by decide, by decide⟩
  · intro n u b hgu
    constructor
    · intro hub
      unfold lintMetricUnit lintMetricUnitWith
      rw [show getMetricUnitWith units n = some (u, b) from hgu]
      simp [hub]
    · intro hub
      unfold lintMetricUnit lintMetricUnitWith
      rw [show getMetricUnitWith units n = some (u, b) from hgu]
      simp [hub]
  · intro n hgu
    unfold lintMetricUnit lintMetricUnitWith
    rw [show getMetricUnitWith units n = none from hgu]

/-- Witness for **C6** at `request_hours_total`: a non-base unit is
detected and exactly the one base-unit issue is raised. -/
theorem c6_unit_idempotent_witness :
    getMetricUnit "request_hours_total" = some ("hours", "seconds")
      ∧ lintMetricUnit "request_hours_total" = [nonBaseUnitMsg "seconds" "hours"] :=
  ⟨by decide,
    (c6_unit_idempotent.1 "request_hours_total" "hours" "seconds" (by decide)).2 (by decide)⟩

/-- **C7** counterexample: in `counter_ops` the kind word `counter` is a
standalone underscore-delimited token bounded by the string start, yet
`lintNoMetricTypeInName` raises nothing, because the code only looks for
`_counter_` inside or `_counter` at the end. -/
theorem c7_counterexample :
    specStandaloneToken "counter_ops" "counter" = true
      ∧ lintNoMetricTypeInName "counter_ops" = [] :=
  ⟨by decide, by decide⟩

theorem lintNoMetricTypeInName_eq (name : String) :
    lintNoMetricTypeInName name =
      (if typeInNameCond name "counter" then [noMetricTypeMsg "counter"] else [])
        ++ ((if typeInNameCond name "gauge" then [noMetricTypeMsg "gauge"] else [])
        ++ ((if typeInNameCond name "summary" then [noMetricTypeMsg "summary"] else [])
        ++ (if typeInNameCond name "histogram" then [noMetricTypeMsg "histogram"] else []))) := by
  have e1 : strToLower "COUNTER" = "counter" := rfl
  have e2 : strToLower "GAUGE" = "gauge" := rfl
  have e3 : strToLower "SUMMARY" = "summary" := rfl
  have e4 : strToLower "HISTOGRAM" = "histogram" := rfl
  by_cases h1 : typeInNameCond name "counter" = true <;>
    by_cases h2 : typeInNameCond name "gauge" = true <;>
      by_cases h3 : typeInNameCond name "summary" = true <;>
        by_cases h4 : typeInNameCond name "histogram" = true <;>
          simp_all [lintNoMetricTypeInName, MetricType_name, MetricType_UNTYPED,
            typeInNameCond, List.filterMap_cons]

/-- **C7** amended: the type-leak check fires for a kind word exactly when
the lowercased name contains `_<kind>_` or ends with `_<kind>` — a kind
word at the start of the name (bounded by the string start) is NOT
detected — and the untyped kind is never reported. -/
theorem c7_amended_type_leak :
    ∀ name : String,
      (noMetricTypeMsg "counter" ∈ lintNoMetricTypeInName name
          ↔ typeInNameCond name "counter" = true)
        ∧ (noMetricTypeMsg "gauge" ∈ lintNoMetricTypeInName name
            ↔ typeInNameCond name "gauge" = true)
        ∧ (noMetricTypeMsg "summary" ∈ lintNoMetricTypeInName name
            ↔ typeInNameCond name "summary" = true)
        ∧ (noMetricTypeMsg "histogram" ∈ lintNoMetricTypeInName name
            ↔ typeInNameCond name "histogram" = true)
        ∧ (lintNoMetricTypeInName name).contains (noMetricTypeMsg "untyped") = false := by
  intro name
  rw [lintNoMetricTypeInName_eq]
  by_cases h1 : typeInNameCond name "counter" = true <;>
    by_cases h2 : typeInNameCond name "gauge" = true <;>
      by_cases h3 : typeInNameCond name "summary" = true <;>
        by_cases h4 : typeInNameCond name "histogram" = true <;>
          refine ⟨?_, ?_, ?_, ?_, ?_⟩ <;>
            simp [h1, h2, h3, h4, noMetricTypeMsg]

/-- Witness for **C7** amended: `foo_counter_total` contains `_counter_`,
so the counter type-leak issue is reported. -/
theorem c7_amended_type_leak_witness :
    noMetricTypeMsg "counter" ∈ lintNoMetricTypeInName "foo_counter_total" :=
  (c7_amended_type_leak "foo_counter_total").1.mpr (by decide)

end Metriclint
